import Mathlib

/-
Verification of the Terragrunt multi-directory plan-generation core
(internal/providers/terraform/terragrunt_provider.go).

Shallow embedding: the external collaborators (command execution, JSON
decoding, option building, filesystem removal) are parameters of the
environment records below; the control flow of `getProjectDirs`,
`generateStateJSONs`, `generatePlanJSONs` and `cleanupPlanFiles` is
translated statement by statement from the Go source.  Byte slices are
`List Nat`; Go's multiple return values `(v, err)` become either
`Except` (when the value is unused on error) or an explicit product
(for `runPlan`, whose `planFile` result is read by the deferred cleanup
even on the error path).  Deferred effects (the cleanup call and its
log-only error) are recorded as fields of the result record.  The
deferred removal of temporary override files (`opts.TerraformConfigFile`)
is a side effect no claim observes and is not tracked.
-/

namespace Terragrunt

abbrev Bytes := List Nat

/-- One decoded record of the discovery stream (type TerragruntInfo). -/
structure TerragruntInfo where
  ConfigPath : String
  WorkingDir : String
deriving DecidableEq, Repr

/-- Per-directory command options returned by `buildCommandOpts`
(only the field the source reads is kept; the rest is opaque). -/
structure CmdOptions where
  terraformConfigFile : String
deriving DecidableEq, Repr

/-- Result triple of `getProjectDirs`: `([]string, []string, error)`. -/
structure DiscoverResult where
  configDirs : List String
  workingDirs : List String
  err : Option String
deriving DecidableEq, Repr

/-- External collaborators of `getProjectDirs`: the aggregate
`run-all terragrunt-info` command's outcome and `json.Unmarshal`. -/
structure DiscoverEnv where
  cmdOut : Except String Bytes
  unmarshal : Bytes → Except String TerragruntInfo

/-- External collaborators of the two generators: `p.checks()`,
`p.buildCommandOpts`, `p.runPlan` (invoked once, with fixed outcome;
a triple because `planFile` is read even when `err` is non-nil),
`p.runShow`, and `os.Remove`. -/
structure Env where
  checksErr : Option String
  buildOpts : String → Except String CmdOptions
  runPlan : String × Bytes × Option String
  runShow : CmdOptions → String → Except String Bytes
  remove : String → Option String

/-- Model of Go `filepath.Join` on two components (without Clean
normalization, which no path in scope needs). -/
def filepathJoin (a b : String) : String :=
  if a = "" then b else if b = "" then a else a ++ "/" ++ b

/-- Model of Go `filepath.Dir`: everything before the final separator,
"." when there is none, "/" for a first-level absolute path (Clean
normalization omitted). -/
def filepathDir (p : String) : String :=
  match p.data.reverse.dropWhile (fun c => c ≠ '/') with
  | [] => "."
  | _ :: before => if before = [] then "/" else String.mk before.reverse

/-- Worker of `bytes.SplitAfter(out, []byte('}', '\n'))`: scan for the
two-byte sequence 125 10, emitting each chunk together with the
delimiter, plus the remainder after the last delimiter. -/
def splitAfterGo : List Nat → List Nat → List (List Nat)
  | acc, [] => [acc]
  | acc, 125 :: 10 :: rest => (acc ++ [125, 10]) :: splitAfterGo [] rest
  | acc, b :: rest => splitAfterGo (acc ++ [b]) rest

/-- `bytes.SplitAfter(out, []byte('}', '\n'))`. -/
def splitAfterBraceNl (out : List Nat) : List (List Nat) :=
  splitAfterGo [] out

/-- Lines 125-127: drop the final segment only when the split produced
more than one segment. -/
def trimSegments (segs : List Bytes) : List Bytes :=
  if segs.length > 1 then segs.dropLast else segs

/-- The decode loop of `getProjectDirs` (lines 132-142): unmarshal each
segment; on failure return the directories accumulated so far with the
error; on success append `filepath.Dir(info.ConfigPath)` and
`info.WorkingDir`. -/
def decodeLoop (unmarshal : Bytes → Except String TerragruntInfo) :
    List Bytes → List String → List String → DiscoverResult
  | [], cds, wds => ⟨cds, wds, none⟩
  | j :: rest, cds, wds =>
    match unmarshal j with
    | Except.error e => ⟨cds, wds, some e⟩
    | Except.ok info =>
      decodeLoop unmarshal rest (cds ++ [filepathDir info.ConfigPath]) (wds ++ [info.WorkingDir])

/-- `getProjectDirs` (lines 109-147). -/
def getProjectDirs (env : DiscoverEnv) : DiscoverResult :=
  match env.cmdOut with
  | Except.error e => ⟨[], [], some e⟩
  | Except.ok out => decodeLoop env.unmarshal (trimSegments (splitAfterBraceNl out)) [] []

/-- The per-directory loop of `generateStateJSONs` (lines 163-177):
`buildCommandOpts` failure returns a fresh empty slice with the error;
`runShow` (with empty plan path) failure returns the outputs collected
so far; otherwise the output is appended. -/
def stateLoop (buildOpts : String → Except String CmdOptions)
    (runShow : CmdOptions → String → Except String Bytes) :
    List String → List Bytes → List Bytes × Option String
  | [], outs => (outs, none)
  | path :: rest, outs =>
    match buildOpts path with
    | Except.error e => ([], some e)
    | Except.ok opts =>
      match runShow opts "" with
      | Except.error e => (outs, some e)
      | Except.ok out => stateLoop buildOpts runShow rest (outs ++ [out])

/-- `generateStateJSONs` (lines 149-180). -/
def generateStateJSONs (env : Env) (configDirs : List String) : List Bytes × Option String :=
  match env.checksErr with
  | some e => ([], some e)
  | none => stateLoop env.buildOpts env.runShow configDirs []

/-- Worker of `cleanupPlanFiles`: remove `join(path, planFile)` for each
path in sequence, recording every attempted removal; the first failure
stops the loop and is returned. -/
def cleanupGo (remove : String → Option String) (planFile : String) :
    List String → List String → Option String × List String
  | [], attempts => (none, attempts)
  | path :: rest, attempts =>
    match remove (filepathJoin path planFile) with
    | some e => (some e, attempts ++ [filepathJoin path planFile])
    | none => cleanupGo remove planFile rest (attempts ++ [filepathJoin path planFile])

/-- `cleanupPlanFiles` (lines 239-252); the second component is the
trace of removal attempts (empty means no filesystem access). -/
def cleanupPlanFiles (remove : String → Option String) (paths : List String)
    (planFile : String) : Option String × List String :=
  if planFile = "" then (none, [])
  else cleanupGo remove planFile paths []

/-- Result of `generatePlanJSONs` with its observable effects: the
returned outputs and error, the trace of plan paths handed to `runShow`,
whether the deferred `cleanupPlanFiles` call was scheduled and with
which arguments, and the cleanup error that is only logged. -/
structure PlanGenResult where
  outs : List Bytes
  err : Option String
  showCalls : List String
  cleanupRan : Bool
  cleanupDirs : List String
  cleanupFile : String
  loggedCleanupErr : Option String
deriving DecidableEq, Repr

/-- The per-directory loop of `generatePlanJSONs` (lines 220-234):
`buildCommandOpts` failure returns a fresh empty slice with the error;
`runShow` pointed at `join(workingDirs(i), planFile)` failure returns
the outputs collected so far; otherwise the output is appended.  The
third component traces the plan path of each issued show invocation. -/
def showLoop (buildOpts : String → Except String CmdOptions)
    (runShow : CmdOptions → String → Except String Bytes)
    (planFile : String) (workingDirs : List String) :
    Nat → List String → List Bytes → List String → List Bytes × Option String × List String
  | _, [], outs, calls => (outs, none, calls)
  | i, path :: rest, outs, calls =>
    match buildOpts path with
    | Except.error e => ([], some e, calls)
    | Except.ok opts =>
      match runShow opts (filepathJoin (workingDirs.getD i "") planFile) with
      | Except.error e => (outs, some e, calls ++ [filepathJoin (workingDirs.getD i "") planFile])
      | Except.ok out =>
        showLoop buildOpts runShow planFile workingDirs (i + 1) rest (outs ++ [out])
          (calls ++ [filepathJoin (workingDirs.getD i "") planFile])

/-- `generatePlanJSONs` (lines 182-237).  The deferred cleanup is
scheduled right after `runPlan` returns, so every later return path
records `cleanupRan := true` with the working directories and the
`planFile` returned by `runPlan`; its error is only logged. -/
def generatePlanJSONs (env : Env) (rootPath : String)
    (configDirs workingDirs : List String) : PlanGenResult :=
  match env.checksErr with
  | some e =>
    { outs := [], err := some e, showCalls := [], cleanupRan := false
      cleanupDirs := [], cleanupFile := "", loggedCleanupErr := none }
  | none =>
    match env.buildOpts rootPath with
    | Except.error e =>
      { outs := [], err := some e, showCalls := [], cleanupRan := false
        cleanupDirs := [], cleanupFile := "", loggedCleanupErr := none }
    | Except.ok _ =>
      match env.runPlan with
      | (planFile, planJSON, perr) =>
        let logged := (cleanupPlanFiles env.remove workingDirs planFile).1
        match perr with
        | some e =>
          { outs := [], err := some e, showCalls := [], cleanupRan := true
            cleanupDirs := workingDirs, cleanupFile := planFile, loggedCleanupErr := logged }
        | none =>
          if planJSON.length > 0 then
            { outs := [planJSON], err := none, showCalls := [], cleanupRan := true
              cleanupDirs := workingDirs, cleanupFile := planFile, loggedCleanupErr := logged }
          else
            match showLoop env.buildOpts env.runShow planFile workingDirs 0 configDirs [] [] with
            | (outs, err, calls) =>
              { outs := outs, err := err, showCalls := calls, cleanupRan := true
                cleanupDirs := workingDirs, cleanupFile := planFile, loggedCleanupErr := logged }

/-! ### Concrete environments used by witness and counterexample theorems -/

/-- Discovery environment whose stream holds one JSON document with no
trailing delimiter, so the split yields exactly one segment. -/
def denvSingle : DiscoverEnv where
  cmdOut := Except.ok [123, 65, 125]
  unmarshal := fun j =>
    if j = [123, 65, 125] then Except.ok ⟨"a/terragrunt.hcl", "wa"⟩
    else Except.error "bad json"

/-- Discovery environment whose stream holds one good document followed
by one undecodable segment (both delimiter-terminated). -/
def denvFail : DiscoverEnv where
  cmdOut := Except.ok [123, 65, 125, 10, 66, 125, 10]
  unmarshal := fun j =>
    if j = [123, 65, 125, 10] then Except.ok ⟨"a/terragrunt.hcl", "wa"⟩
    else Except.error "bad json"

/-- Discovery environment whose command printed nothing; its decoder
rejects the empty segment the way `json.Unmarshal` does. -/
def denvEmpty : DiscoverEnv where
  cmdOut := Except.ok []
  unmarshal := fun _ => Except.error "unexpected end of JSON input"

/-- Discovery environment whose stream holds two well-formed documents. -/
def denvTwo : DiscoverEnv where
  cmdOut := Except.ok [123, 65, 125, 10, 123, 66, 125, 10]
  unmarshal := fun j =>
    if j = [123, 65, 125, 10] then Except.ok ⟨"a/terragrunt.hcl", "wa"⟩
    else if j = [123, 66, 125, 10] then Except.ok ⟨"b/terragrunt.hcl", "wb"⟩
    else Except.error "bad json"

/-- Generator environment where every collaborator succeeds and the
aggregate plan writes per-directory files (empty plan JSON). -/
def envW : Env where
  checksErr := none
  buildOpts := fun _ => Except.ok ⟨""⟩
  runPlan := ("tfplan", [], none)
  runShow := fun _ _ => Except.ok [49]
  remove := fun _ => none

/-- Generator environment where option building fails on directory "b"
while everything else succeeds (state mode; plan result unused). -/
def envC5 : Env where
  checksErr := none
  buildOpts := fun p => if p = "b" then Except.error "boom" else Except.ok ⟨""⟩
  runPlan := ("", [], none)
  runShow := fun _ _ => Except.ok [49]
  remove := fun _ => none

/-- Generator environment for fresh-plan mode: empty aggregate plan
JSON, option building fails on directory "b", shows succeed. -/
def envC4 : Env where
  checksErr := none
  buildOpts := fun p => if p = "b" then Except.error "boom" else Except.ok ⟨""⟩
  runPlan := ("tfplan", [], none)
  runShow := fun _ _ => Except.ok [49]
  remove := fun _ => none

/-- Generator environment where each directory's options carry the
directory name and the show command fails exactly on directory "b". -/
def envW5 : Env where
  checksErr := none
  buildOpts := fun p => Except.ok ⟨p⟩
  runPlan := ("", [], none)
  runShow := fun o _ => if o.terraformConfigFile = "b" then Except.error "sfail" else Except.ok [49]
  remove := fun _ => none

/-- Generator environment taking the unified-plan branch: the aggregate
plan call returns non-empty JSON and no plan-file name. -/
def envC3 : Env where
  checksErr := none
  buildOpts := fun _ => Except.ok ⟨""⟩
  runPlan := ("", [123, 125], none)
  runShow := fun _ _ => Except.ok [49]
  remove := fun _ => none

/-- Generator environment where the aggregate plan command itself fails
and every removal fails, to exercise the deferred cleanup path. -/
def envW7 : Env where
  checksErr := none
  buildOpts := fun _ => Except.ok ⟨""⟩
  runPlan := ("tfplan", [], some "planfail")
  runShow := fun _ _ => Except.ok [49]
  remove := fun _ => some "rmfail"

/-- Removal stub failing exactly on directory "b"'s plan file. -/
def rmW : String → Option String :=
  fun s => if s = "b/plan.out" then some "rmfail" else none

/-! ### Helper lemmas about the loops -/

theorem decodeLoop_len (u : Bytes → Except String TerragruntInfo) (segs : List Bytes) :
    ∀ cds wds : List String, cds.length = wds.length →
      (decodeLoop u segs cds wds).configDirs.length =
        (decodeLoop u segs cds wds).workingDirs.length := by
  induction segs with
  | nil => intro cds wds h; simpa [decodeLoop] using h
  | cons j rest ih =>
    intro cds wds h
    cases hj : u j with
    | error e => simpa [decodeLoop, hj] using h
    | ok info => simpa [decodeLoop, hj] using ih _ _ (by simp [h])

theorem getProjectDirs_len_aux (env : DiscoverEnv) :
    (getProjectDirs env).configDirs.length = (getProjectDirs env).workingDirs.length := by
  cases hout : env.cmdOut with
  | error e => simp [getProjectDirs, hout]
  | ok out => simpa [getProjectDirs, hout] using decodeLoop_len env.unmarshal _ [] [] rfl

theorem decodeLoop_fail (u : Bytes → Except String TerragruntInfo)
    (pre : List Bytes) (infos : List TerragruntInfo)
    (h : List.Forall₂ (fun s x => u s = Except.ok x) pre infos) :
    ∀ (bad : Bytes) (e : String), u bad = Except.error e →
    ∀ (rest : List Bytes) (cds wds : List String),
      decodeLoop u (pre ++ bad :: rest) cds wds =
        ⟨cds ++ infos.map (fun x => filepathDir x.ConfigPath),
         wds ++ infos.map (fun x => x.WorkingDir), some e⟩ := by
  induction h with
  | nil => intro bad e hbad rest cds wds; simp [decodeLoop, hbad]
  | cons h1 _ ih =>
    intro bad e hbad rest cds wds
    simp only [List.cons_append, List.append_eq, decodeLoop, h1]
    rw [ih bad e hbad rest]
    simp

theorem stateLoop_ok_pre (buildOpts : String → Except String CmdOptions)
    (runShow : CmdOptions → String → Except String Bytes)
    (optsOf : String → CmdOptions) (outOf : String → Bytes) :
    ∀ pre : List String,
      (∀ d ∈ pre, buildOpts d = Except.ok (optsOf d)) →
      (∀ d ∈ pre, runShow (optsOf d) "" = Except.ok (outOf d)) →
      ∀ (sfx : List String) (outs : List Bytes),
        stateLoop buildOpts runShow (pre ++ sfx) outs =
          stateLoop buildOpts runShow sfx (outs ++ pre.map outOf) := by
  intro pre
  induction pre with
  | nil => intro _ _ sfx outs; simp
  | cons d pre ih =>
    intro hb hs sfx outs
    have hbd := hb d (by simp)
    have hsd := hs d (by simp)
    simp only [List.cons_append, List.append_eq, stateLoop, hbd, hsd]
    rw [ih (fun x hx => hb x (by simp [hx])) (fun x hx => hs x (by simp [hx]))]
    simp

theorem showLoop_ok (buildOpts : String → Except String CmdOptions)
    (runShow : CmdOptions → String → Except String Bytes)
    (pf : String) (wds : List String) :
    ∀ dirs : List String,
      (∀ d ∈ dirs, ∃ o, buildOpts d = Except.ok o) →
      (∀ o s, ∃ b, runShow o s = Except.ok b) →
      ∀ i : Nat, i + dirs.length = wds.length →
      ∀ (outs : List Bytes) (calls : List String),
        ∃ newOuts, showLoop buildOpts runShow pf wds i dirs outs calls =
            (outs ++ newOuts, none, calls ++ (wds.drop i).map (fun w => filepathJoin w pf))
          ∧ newOuts.length = dirs.length := by
  intro dirs
  induction dirs with
  | nil =>
    intro _ _ i hi outs calls
    simp only [List.length_nil, Nat.add_zero] at hi
    refine ⟨[], ?_, rfl⟩
    have hd : wds.drop i = [] := List.drop_eq_nil_of_le (by omega)
    simp [showLoop, hd]
  | cons d dirs ih =>
    intro hb hs i hi outs calls
    obtain ⟨o, ho⟩ := hb d (by simp)
    obtain ⟨b, hbs⟩ := hs o (filepathJoin (wds.getD i "") pf)
    rw [List.length_cons] at hi
    have hilt : i < wds.length := by omega
    obtain ⟨n2, hrec, hlen⟩ := ih (fun x hx => hb x (by simp [hx])) hs (i + 1)
      (by omega) (outs ++ [b])
      (calls ++ [filepathJoin (wds.getD i "") pf])
    refine ⟨b :: n2, ?_, by simp [hlen]⟩
    simp only [showLoop, ho, hbs]
    rw [hrec]
    have hdrop : wds.drop i = wds[i] :: wds.drop (i + 1) := List.drop_eq_getElem_cons hilt
    have hgd : wds.getD i "" = wds[i] := List.getD_eq_getElem wds "" hilt
    rw [hgd, hdrop]
    simp only [List.map_cons, List.append_assoc, List.singleton_append]

theorem showLoop_buildFail (buildOpts : String → Except String CmdOptions)
    (runShow : CmdOptions → String → Except String Bytes)
    (pf : String) (wds : List String) :
    ∀ pre : List String,
      (∀ d ∈ pre, ∃ o, buildOpts d = Except.ok o) →
      (∀ o s, ∃ b, runShow o s = Except.ok b) →
      ∀ (bad : String) (e : String), buildOpts bad = Except.error e →
      ∀ (rest : List String) (i : Nat) (outs : List Bytes) (calls : List String),
        ∃ cs, showLoop buildOpts runShow pf wds i (pre ++ bad :: rest) outs calls =
          ([], some e, cs) := by
  intro pre
  induction pre with
  | nil =>
    intro _ _ bad e hbad rest i outs calls
    exact ⟨calls, by simp [showLoop, hbad]⟩
  | cons d pre ih =>
    intro hb hs bad e hbad rest i outs calls
    obtain ⟨o, ho⟩ := hb d (by simp)
    obtain ⟨b, hbs⟩ := hs o (filepathJoin (wds.getD i "") pf)
    simp only [List.cons_append, showLoop, ho, hbs]
    exact ih (fun x hx => hb x (by simp [hx])) hs bad e hbad rest (i + 1) _ _

theorem cleanupGo_ok (remove : String → Option String) (pf : String) :
    ∀ dirs : List String,
      (∀ d ∈ dirs, remove (filepathJoin d pf) = none) →
      ∀ attempts : List String,
        cleanupGo remove pf dirs attempts =
          (none, attempts ++ dirs.map (fun d => filepathJoin d pf)) := by
  intro dirs
  induction dirs with
  | nil => intro _ attempts; simp [cleanupGo]
  | cons d dirs ih =>
    intro h attempts
    have hd := h d (by simp)
    simp only [cleanupGo, hd]
    rw [ih (fun x hx => h x (by simp [hx]))]
    simp

theorem cleanupGo_fail (remove : String → Option String) (pf : String) :
    ∀ pre : List String,
      (∀ d ∈ pre, remove (filepathJoin d pf) = none) →
      ∀ (bad : String) (e : String), remove (filepathJoin bad pf) = some e →
      ∀ (rest : List String) (attempts : List String),
        cleanupGo remove pf (pre ++ bad :: rest) attempts =
          (some e, attempts ++ (pre ++ [bad]).map (fun d => filepathJoin d pf)) := by
  intro pre
  induction pre with
  | nil => intro _ bad e hbad rest attempts; simp [cleanupGo, hbad]
  | cons d pre ih =>
    intro h bad e hbad rest attempts
    have hd := h d (by simp)
    simp only [List.cons_append, List.append_eq, cleanupGo, hd]
    rw [ih (fun x hx => h x (by simp [hx])) bad e hbad rest]
    simp

/-! ### Claim theorems -/

/-- C9: on every return path of discovery — command failure, decode
failure with partial results, and success — the returned `configDirs`
and `workingDirs` sequences have equal length, because each decoded
record appends exactly one element to each. -/
theorem discovery_parallel_lengths (env : DiscoverEnv) :
    (getProjectDirs env).configDirs.length = (getProjectDirs env).workingDirs.length :=
  getProjectDirs_len_aux env

/-- C2: discovery splits the output stream on the two-byte sequence
0x7D 0x0A and discards the final segment of the split only when the
split produced more than one segment; when the split of the stream
yields exactly one segment, that segment is kept, decoded, and its
record returned. -/
theorem discovery_trim_asymmetry (env : DiscoverEnv) (out s : Bytes)
    (info : TerragruntInfo)
    (hout : env.cmdOut = Except.ok out)
    (hsplit : splitAfterBraceNl out = [s])
    (hdec : env.unmarshal s = Except.ok info) :
    (∀ segs : List Bytes, segs.length > 1 → trimSegments segs = segs.dropLast) ∧
    (∀ segs : List Bytes, segs.length ≤ 1 → trimSegments segs = segs) ∧
    getProjectDirs env = ⟨[filepathDir info.ConfigPath], [info.WorkingDir], none⟩ := by
  refine ⟨fun segs h => by simp [trimSegments, h],
    fun segs h => by simp only [trimSegments]; rw [if_neg (by omega)], ?_⟩
  simp [getProjectDirs, hout, hsplit, trimSegments, decodeLoop, hdec]

/-- Witness for C2: a stream holding one JSON document with no trailing
delimiter is not trimmed away; its record is decoded and returned. -/
theorem discovery_trim_asymmetry_witness :
    getProjectDirs denvSingle = ⟨["a"], ["wa"], none⟩ := by
  have h := (discovery_trim_asymmetry denvSingle [123, 65, 125] [123, 65, 125]
    ⟨"a/terragrunt.hcl", "wa"⟩ rfl rfl rfl).2.2
  rw [h]
  decide

/-- C6: when a segment of the (trimmed) discovery stream fails to
decode, discovery aborts there and returns exactly the directories
accumulated from the segments before the failing one, together with
the decode error. -/
theorem discovery_partial_on_decode_failure (env : DiscoverEnv) (out : Bytes)
    (pre : List Bytes) (bad : Bytes) (rest : List Bytes)
    (infos : List TerragruntInfo) (e : String)
    (hout : env.cmdOut = Except.ok out)
    (hsegs : trimSegments (splitAfterBraceNl out) = pre ++ bad :: rest)
    (hpre : List.Forall₂ (fun s x => env.unmarshal s = Except.ok x) pre infos)
    (hbad : env.unmarshal bad = Except.error e) :
    getProjectDirs env =
      ⟨infos.map (fun x => filepathDir x.ConfigPath),
       infos.map (fun x => x.WorkingDir), some e⟩ := by
  simp only [getProjectDirs, hout, hsegs]
  simpa using decodeLoop_fail env.unmarshal pre infos hpre bad e hbad rest [] []

/-- Witness for C6: a good document followed by an undecodable segment
yields the first record plus the decode error. -/
theorem discovery_partial_on_decode_failure_witness :
    getProjectDirs denvFail = ⟨["a"], ["wa"], some "bad json"⟩ := by
  have h := discovery_partial_on_decode_failure denvFail
    [123, 65, 125, 10, 66, 125, 10] [[123, 65, 125, 10]] [66, 125, 10] []
    [⟨"a/terragrunt.hcl", "wa"⟩] "bad json" rfl rfl
    (List.Forall₂.cons rfl List.Forall₂.nil) rfl
  rw [h]
  decide

/-- C10: a discovery command printing nothing yields one empty segment
which is not trimmed; its decode fails, so discovery returns two empty
sequences together with the decode error instead of an empty success. -/
theorem discovery_empty_stream_errors (env : DiscoverEnv) (e : String)
    (hout : env.cmdOut = Except.ok [])
    (hdec : env.unmarshal [] = Except.error e) :
    getProjectDirs env = ⟨[], [], some e⟩ := by
  simp [getProjectDirs, hout, splitAfterBraceNl, splitAfterGo, trimSegments, decodeLoop, hdec]

/-- Witness for C10 with the decode error Go's decoder produces on an
empty input. -/
theorem discovery_empty_stream_errors_witness :
    getProjectDirs denvEmpty = ⟨[], [], some "unexpected end of JSON input"⟩ :=
  discovery_empty_stream_errors denvEmpty _ rfl rfl

/-- C5 counterexample: with two directories where option building fails
on the second (k = 2) after the first produced an output, the
persisted-state generator returns zero outputs, not k-1 = 1. -/
theorem generateStateJSONs_buildfail_cex :
    generateStateJSONs envC5 ["a", "b"] = ([], some "boom") ∧
    (generateStateJSONs envC5 ["a", "b"]).1.length ≠ 2 - 1 := by decide

/-- C5 (amended): directories are processed strictly in input order; on
success the outputs are the per-directory show outputs in that order; a
show-command failure at directory k returns exactly the k-1 outputs
collected so far plus the error; an option-build failure at directory k
instead discards the collected outputs and returns an empty sequence
plus the error. -/
theorem generateStateJSONs_order_and_failures (env : Env)
    (optsOf : String → CmdOptions) (outOf : String → Bytes)
    (hchecks : env.checksErr = none) :
    (∀ dirs : List String,
      (∀ d ∈ dirs, env.buildOpts d = Except.ok (optsOf d)) →
      (∀ d ∈ dirs, env.runShow (optsOf d) "" = Except.ok (outOf d)) →
      generateStateJSONs env dirs = (dirs.map outOf, none)) ∧
    (∀ (pre : List String) (bad : String) (rest : List String) (e : String),
      (∀ d ∈ pre, env.buildOpts d = Except.ok (optsOf d)) →
      (∀ d ∈ pre, env.runShow (optsOf d) "" = Except.ok (outOf d)) →
      env.buildOpts bad = Except.ok (optsOf bad) →
      env.runShow (optsOf bad) "" = Except.error e →
      generateStateJSONs env (pre ++ bad :: rest) = (pre.map outOf, some e)) ∧
    (∀ (pre : List String) (bad : String) (rest : List String) (e : String),
      (∀ d ∈ pre, env.buildOpts d = Except.ok (optsOf d)) →
      (∀ d ∈ pre, env.runShow (optsOf d) "" = Except.ok (outOf d)) →
      env.buildOpts bad = Except.error e →
      generateStateJSONs env (pre ++ bad :: rest) = ([], some e)) := by
  refine ⟨?_, ?_, ?_⟩
  · intro dirs hb hs
    have h := stateLoop_ok_pre env.buildOpts env.runShow optsOf outOf dirs hb hs [] []
    simp only [List.append_nil] at h
    simp [generateStateJSONs, hchecks, h, stateLoop]
  · intro pre bad rest e hb hs hbb hbe
    have h := stateLoop_ok_pre env.buildOpts env.runShow optsOf outOf pre hb hs (bad :: rest) []
    simp [generateStateJSONs, hchecks, h, stateLoop, hbb, hbe]
  · intro pre bad rest e hb hs hbb
    have h := stateLoop_ok_pre env.buildOpts env.runShow optsOf outOf pre hb hs (bad :: rest) []
    simp [generateStateJSONs, hchecks, h, stateLoop, hbb]

/-- Witness for C5 (amended): three directories with the show command
failing on the second return exactly the first directory's output plus
the error. -/
theorem generateStateJSONs_order_and_failures_witness :
    generateStateJSONs envW5 ["a", "b", "c"] = ([[49]], some "sfail") := by
  have h := (generateStateJSONs_order_and_failures envW5 (fun p => ⟨p⟩) (fun _ => [49])
    rfl).2.1 ["a"] "b" ["c"] "sfail"
    (by intro d hd; simp at hd; subst hd; rfl)
    (by intro d hd; simp at hd; subst hd; rfl)
    rfl rfl
  simpa using h

/-- C4 counterexample: in fresh-plan fallback mode, after directory "a"
produced an output, the option-build failure on directory "b" makes the
call return an empty output sequence, not the partial `[[49]]`. -/
theorem optionBuildError_discards_collected_cex :
    (generatePlanJSONs envC4 "." ["a", "b"] ["wa", "wb"]).err = some "boom" ∧
    envC4.runShow ⟨""⟩ (filepathJoin "wa" "tfplan") = Except.ok [49] ∧
    (generatePlanJSONs envC4 "." ["a", "b"] ["wa", "wb"]).outs = [] ∧
    (generatePlanJSONs envC4 "." ["a", "b"] ["wa", "wb"]).outs ≠ [[49]] :=
  ⟨by decide, rfl, by decide, by decide⟩

/-- C4 (amended): in both strategies an option-build failure at
directory k aborts the call but returns an empty output sequence —
the outputs already produced for directories 1..k-1 are discarded —
together with the error. -/
theorem optionBuildError_returns_empty (env : Env)
    (hchecks : env.checksErr = none) :
    (∀ (optsOf : String → CmdOptions) (outOf : String → Bytes)
        (pre : List String) (bad : String) (rest : List String) (e : String),
      (∀ d ∈ pre, env.buildOpts d = Except.ok (optsOf d)) →
      (∀ d ∈ pre, env.runShow (optsOf d) "" = Except.ok (outOf d)) →
      env.buildOpts bad = Except.error e →
      generateStateJSONs env (pre ++ bad :: rest) = ([], some e)) ∧
    (∀ (rootPath : String) (o : CmdOptions) (pf : String)
        (pre : List String) (bad : String) (rest : List String) (e : String)
        (wds : List String),
      env.buildOpts rootPath = Except.ok o →
      env.runPlan = (pf, [], none) →
      (∀ d ∈ pre, ∃ o2, env.buildOpts d = Except.ok o2) →
      (∀ o2 s, ∃ b, env.runShow o2 s = Except.ok b) →
      env.buildOpts bad = Except.error e →
      (generatePlanJSONs env rootPath (pre ++ bad :: rest) wds).outs = [] ∧
      (generatePlanJSONs env rootPath (pre ++ bad :: rest) wds).err = some e) := by
  constructor
  · intro optsOf outOf pre bad rest e hb hs hbb
    have h := stateLoop_ok_pre env.buildOpts env.runShow optsOf outOf pre hb hs (bad :: rest) []
    simp [generateStateJSONs, hchecks, h, stateLoop, hbb]
  · intro rootPath o pf pre bad rest e wds hroot hplan hb hs hbb
    obtain ⟨cs, hcs⟩ := showLoop_buildFail env.buildOpts env.runShow pf wds pre hb hs
      bad e hbb rest 0 [] []
    constructor <;> simp [generatePlanJSONs, hchecks, hroot, hplan, hcs]

/-- Witness for C4 (amended) in both strategies at concrete inputs. -/
theorem optionBuildError_returns_empty_witness :
    generateStateJSONs envC4 ["a", "b"] = ([], some "boom") ∧
    (generatePlanJSONs envC4 "." ["a", "b"] ["wa", "wb"]).outs = [] := by
  have h := optionBuildError_returns_empty envC4 rfl
  refine ⟨?_, ?_⟩
  · exact h.1 (fun _ => ⟨""⟩) (fun _ => [49]) ["a"] "b" [] "boom"
      (by intro d hd; simp at hd; subst hd; rfl)
      (by intro d hd; simp at hd; subst hd; rfl) rfl
  · exact (h.2 "." ⟨""⟩ "tfplan" ["a"] "b" [] "boom" ["wa", "wb"] rfl rfl
      (by intro d hd; simp at hd; subst hd; exact ⟨⟨""⟩, rfl⟩)
      (fun o2 s => ⟨[49], rfl⟩) rfl).1

/-- C1: with checks and root option building succeeded and the
aggregate plan call returning without error, the fresh-plan generator
behaves as follows.  Non-empty plan JSON: the result is exactly that
one blob and no per-directory show is issued.  Empty plan JSON (with
the per-directory collaborators succeeding): one output per
configuration directory, and exactly one show per directory, the i-th
pointed at join(workingDirs(i), planFile). -/
theorem generatePlanJSONs_branching (env : Env) (rootPath : String)
    (configDirs workingDirs : List String) (o : CmdOptions) (pf : String) (js : Bytes)
    (hchecks : env.checksErr = none)
    (hroot : env.buildOpts rootPath = Except.ok o)
    (hplan : env.runPlan = (pf, js, none))
    (hlen : workingDirs.length = configDirs.length) :
    (js ≠ [] →
      (generatePlanJSONs env rootPath configDirs workingDirs).outs = [js] ∧
      (generatePlanJSONs env rootPath configDirs workingDirs).showCalls = []) ∧
    (js = [] →
      (∀ d ∈ configDirs, ∃ o2, env.buildOpts d = Except.ok o2) →
      (∀ o2 s, ∃ b, env.runShow o2 s = Except.ok b) →
      (generatePlanJSONs env rootPath configDirs workingDirs).outs.length = configDirs.length ∧
      (generatePlanJSONs env rootPath configDirs workingDirs).showCalls =
        workingDirs.map (fun w => filepathJoin w pf) ∧
      (generatePlanJSONs env rootPath configDirs workingDirs).err = none) := by
  constructor
  · intro hjs
    have hpos : js.length > 0 := List.length_pos.mpr hjs
    constructor <;> simp [generatePlanJSONs, hchecks, hroot, hplan, hpos]
  · intro hjs hb hs
    subst hjs
    obtain ⟨newOuts, hrec, hlen2⟩ := showLoop_ok env.buildOpts env.runShow pf workingDirs
      configDirs hb hs 0 (by omega) [] []
    refine ⟨?_, ?_, ?_⟩ <;> simp [generatePlanJSONs, hchecks, hroot, hplan, hrec, hlen2]

/-- Witness for C1 on the empty-plan-JSON branch with two directories:
two outputs, two shows at the per-directory plan paths, no error. -/
theorem generatePlanJSONs_branching_witness :
    (generatePlanJSONs envW "." ["a", "b"] ["wa", "wb"]).outs.length = 2 ∧
    (generatePlanJSONs envW "." ["a", "b"] ["wa", "wb"]).showCalls =
      ["wa/tfplan", "wb/tfplan"] ∧
    (generatePlanJSONs envW "." ["a", "b"] ["wa", "wb"]).err = none := by
  have h := (generatePlanJSONs_branching envW "." ["a", "b"] ["wa", "wb"] ⟨""⟩ "tfplan" []
    rfl rfl rfl rfl).2 rfl
    (by intro d hd; exact ⟨⟨""⟩, rfl⟩) (fun o2 s => ⟨[49], rfl⟩)
  refine ⟨by simpa using h.1, ?_, h.2.2⟩
  rw [h.2.1]
  decide

/-- C3 counterexample: discovery succeeds with two directories and the
fresh-plan strategy succeeds through the unified-plan branch, yet the
output count is 1, not 2. -/
theorem length_invariant_unified_cex :
    getProjectDirs denvTwo = ⟨["a", "b"], ["wa", "wb"], none⟩ ∧
    (generatePlanJSONs envC3 "." ["a", "b"] ["wa", "wb"]).err = none ∧
    (generatePlanJSONs envC3 "." ["a", "b"] ["wa", "wb"]).outs.length = 1 ∧
    (1 : Nat) ≠ (["a", "b"] : List String).length := by decide

/-- C3 (amended): after a successful discovery `configDirs` and
`workingDirs` always have equal length; on success the output count
equals the directory count in persisted-state mode and in the
per-directory fallback branch of fresh-plan mode; the unified-plan
branch instead returns exactly one output regardless of the directory
count, so the three-way equality holds there only for a single
directory. -/
theorem length_invariant_amended (denv : DiscoverEnv) (env : Env)
    (cds wds : List String)
    (hdisc : getProjectDirs denv = ⟨cds, wds, none⟩) :
    cds.length = wds.length ∧
    (∀ (optsOf : String → CmdOptions) (outOf : String → Bytes),
      env.checksErr = none →
      (∀ d ∈ cds, env.buildOpts d = Except.ok (optsOf d)) →
      (∀ d ∈ cds, env.runShow (optsOf d) "" = Except.ok (outOf d)) →
      (generateStateJSONs env cds).1.length = cds.length) ∧
    (∀ (rootPath : String) (o : CmdOptions) (pf : String),
      env.checksErr = none →
      env.buildOpts rootPath = Except.ok o →
      env.runPlan = (pf, [], none) →
      (∀ d ∈ cds, ∃ o2, env.buildOpts d = Except.ok o2) →
      (∀ o2 s, ∃ b, env.runShow o2 s = Except.ok b) →
      (generatePlanJSONs env rootPath cds wds).outs.length = cds.length ∧
      (generatePlanJSONs env rootPath cds wds).err = none) ∧
    (∀ (rootPath : String) (o : CmdOptions) (pf : String) (js : Bytes),
      env.checksErr = none →
      env.buildOpts rootPath = Except.ok o →
      env.runPlan = (pf, js, none) → js ≠ [] →
      (generatePlanJSONs env rootPath cds wds).outs.length = 1) := by
  have hlen : cds.length = wds.length := by
    have h2 := getProjectDirs_len_aux denv
    rw [hdisc] at h2
    exact h2
  refine ⟨hlen, ?_, ?_, ?_⟩
  · intro optsOf outOf hchecks hb hs
    have h := stateLoop_ok_pre env.buildOpts env.runShow optsOf outOf cds hb hs [] []
    simp only [List.append_nil] at h
    simp [generateStateJSONs, hchecks, h, stateLoop]
  · intro rootPath o pf hchecks hroot hplan hb hs
    obtain ⟨newOuts, hrec, hlen2⟩ := showLoop_ok env.buildOpts env.runShow pf wds
      cds hb hs 0 (by omega) [] []
    constructor <;> simp [generatePlanJSONs, hchecks, hroot, hplan, hrec, hlen2]
  · intro rootPath o pf js hchecks hroot hplan hjs
    have hpos : js.length > 0 := List.length_pos.mpr hjs
    simp [generatePlanJSONs, hchecks, hroot, hplan, hpos]

/-- Witness for C3 (amended) at a two-directory discovery with the
fallback branch of fresh-plan mode. -/
theorem length_invariant_amended_witness :
    (["a", "b"] : List String).length = (["wa", "wb"] : List String).length ∧
    (generateStateJSONs envW ["a", "b"]).1.length = 2 ∧
    (generatePlanJSONs envW "." ["a", "b"] ["wa", "wb"]).outs.length = 2 := by
  have h := length_invariant_amended denvTwo envW ["a", "b"] ["wa", "wb"] (by decide)
  refine ⟨h.1, ?_, ?_⟩
  · have h2 := h.2.1 (fun _ => ⟨""⟩) (fun _ => [49]) rfl
      (fun d hd => rfl) (fun d hd => rfl)
    simpa using h2
  · have h2 := (h.2.2.1 "." ⟨""⟩ "tfplan" rfl rfl rfl
      (by intro d hd; exact ⟨⟨""⟩, rfl⟩) (fun o2 s => ⟨[49], rfl⟩)).1
    simpa using h2

/-- C7: once checks passed and root options were built (so the
aggregate plan command was invoked), every return path of the
fresh-plan generator schedules the deferred cleanup against all working
directories with the plan-file name returned by the plan call; the
cleanup error is only logged, and the returned error is independent of
the removal collaborator. -/
theorem generatePlanJSONs_cleanup_always (env : Env) (rootPath : String)
    (configDirs workingDirs : List String) (o : CmdOptions)
    (hchecks : env.checksErr = none)
    (hroot : env.buildOpts rootPath = Except.ok o) :
    (generatePlanJSONs env rootPath configDirs workingDirs).cleanupRan = true ∧
    (generatePlanJSONs env rootPath configDirs workingDirs).cleanupDirs = workingDirs ∧
    (generatePlanJSONs env rootPath configDirs workingDirs).cleanupFile = env.runPlan.1 ∧
    (generatePlanJSONs env rootPath configDirs workingDirs).loggedCleanupErr =
      (cleanupPlanFiles env.remove workingDirs env.runPlan.1).1 ∧
    ∀ rm : String → Option String,
      (generatePlanJSONs { env with remove := rm } rootPath configDirs workingDirs).err =
        (generatePlanJSONs env rootPath configDirs workingDirs).err := by
  rcases hplan : env.runPlan with ⟨pf, js, perr⟩
  cases perr with
  | some e =>
    refine ⟨?_, ?_, ?_, ?_, fun rm => ?_⟩ <;>
      simp [generatePlanJSONs, hchecks, hroot, hplan]
  | none =>
    by_cases hpos : js.length > 0
    · refine ⟨?_, ?_, ?_, ?_, fun rm => ?_⟩ <;>
        simp [generatePlanJSONs, hchecks, hroot, hplan, hpos]
    · rcases hsl : showLoop env.buildOpts env.runShow pf workingDirs 0 configDirs [] []
        with ⟨outs, err, calls⟩
      refine ⟨?_, ?_, ?_, ?_, fun rm => ?_⟩ <;>
        simp [generatePlanJSONs, hchecks, hroot, hplan, hpos, hsl]

/-- Witness for C7 on the path where the plan command itself failed:
cleanup is still scheduled with all working directories and the
returned plan-file name, its failure is only logged, and swapping the
removal collaborator leaves the returned error unchanged. -/
theorem generatePlanJSONs_cleanup_always_witness :
    (generatePlanJSONs envW7 "." ["a"] ["wa"]).cleanupRan = true ∧
    (generatePlanJSONs envW7 "." ["a"] ["wa"]).cleanupDirs = ["wa"] ∧
    (generatePlanJSONs envW7 "." ["a"] ["wa"]).cleanupFile = "tfplan" ∧
    (generatePlanJSONs envW7 "." ["a"] ["wa"]).loggedCleanupErr = some "rmfail" ∧
    (generatePlanJSONs { envW7 with remove := fun _ => none } "." ["a"] ["wa"]).err =
      (generatePlanJSONs envW7 "." ["a"] ["wa"]).err := by
  have h := generatePlanJSONs_cleanup_always envW7 "." ["a"] ["wa"] ⟨""⟩ rfl rfl
  refine ⟨h.1, h.2.1, ?_, ?_, h.2.2.2.2 _⟩
  · rw [h.2.2.1]
    rfl
  · rw [h.2.2.2.1]
    decide

/-- C8: cleanup with an empty file name performs no removal attempt and
returns nil; otherwise it removes join(dir, fileName) for each
directory in sequence, and the first removal failure stops the loop and
is returned, with the directories after it never attempted (the attempt
trace ends at the failing directory). -/
theorem cleanupPlanFiles_spec :
    (∀ (rm : String → Option String) (dirs : List String),
      cleanupPlanFiles rm dirs "" = (none, [])) ∧
    (∀ (rm : String → Option String) (pf : String) (dirs : List String),
      pf ≠ "" →
      (∀ d ∈ dirs, rm (filepathJoin d pf) = none) →
      cleanupPlanFiles rm dirs pf = (none, dirs.map (fun d => filepathJoin d pf))) ∧
    (∀ (rm : String → Option String) (pf : String) (pre : List String)
        (bad : String) (rest : List String) (e : String),
      pf ≠ "" →
      (∀ d ∈ pre, rm (filepathJoin d pf) = none) →
      rm (filepathJoin bad pf) = some e →
      cleanupPlanFiles rm (pre ++ bad :: rest) pf =
        (some e, (pre ++ [bad]).map (fun d => filepathJoin d pf))) := by
  refine ⟨fun rm dirs => by simp [cleanupPlanFiles], ?_, ?_⟩
  · intro rm pf dirs hpf h
    simp only [cleanupPlanFiles, if_neg hpf]
    simpa using cleanupGo_ok rm pf dirs h []
  · intro rm pf pre bad rest e hpf h hbad
    simp only [cleanupPlanFiles, if_neg hpf]
    simpa using cleanupGo_fail rm pf pre h bad e hbad rest []

/-- Witness for C8: empty file name is a no-op; a failure on "b" after
"a" was removed returns the error with "c" never attempted. -/
theorem cleanupPlanFiles_spec_witness :
    cleanupPlanFiles rmW ["a", "b", "c"] "" = (none, []) ∧
    cleanupPlanFiles rmW ["a", "c"] "plan.out" = (none, ["a/plan.out", "c/plan.out"]) ∧
    cleanupPlanFiles rmW ["a", "b", "c"] "plan.out" =
      (some "rmfail", ["a/plan.out", "b/plan.out"]) := by
  refine ⟨cleanupPlanFiles_spec.1 rmW ["a", "b", "c"], ?_, ?_⟩
  · have h := cleanupPlanFiles_spec.2.1 rmW "plan.out" ["a", "c"] (by decide)
      (by intro d hd; simp at hd; rcases hd with rfl | rfl <;> rfl)
    rw [h]
    decide
  · have h := cleanupPlanFiles_spec.2.2 rmW "plan.out" ["a"] "b" ["c"] "rmfail" (by decide)
      (by intro d hd; simp at hd; subst hd; rfl) rfl
    exact h.trans (by decide)

end Terragrunt
